import Mathlib

/-!
Verification of the notebook helper module `src/notebooks/nbhelpers/nbhelpers.py`
of the aws-batch-architecture-for-alphafold repository.

The module is glue code around AWS Batch / S3 / CloudWatch and third-party
libraries.  The shallow embedding below models the pure request-shaping and
string/list processing logic of each helper:

* external service calls (CloudFormation stack discovery, `batch.submit_job`,
  `logs.get_log_events`, S3 transfers) are modelled by passing their inputs in
  (the resolved resource bundle, the fetched log events, the pre-existing
  temporary-file content) and by returning the request record that the code
  hands to the external client;
* Python machine integers are modelled by `Int` (they are arbitrary-precision
  in Python as well), byte strings of fixed-format lines by `List Char`;
* fallible Python code (uncaught exceptions such as `NameError`,
  `IndexError`, `KeyError`, `AttributeError`, `ValueError` on `int(...)`)
  is modelled with `Option` / `Except`.
-/

namespace NBHelpers

/-- One entry of a Batch `resourceRequirements` list, e.g.
`{"value": "4", "type": "VCPU"}`. -/
structure ResourceRequirement where
  value : String
  type : String
deriving DecidableEq, Repr

/-- One entry of a Batch `dependsOn` list, e.g.
`{"jobId": ..., "type": "SEQUENTIAL"}`. -/
structure Dependency where
  jobId : String
  type : String
deriving DecidableEq, Repr

/-- The `containerOverrides` record passed to `batch.submit_job`. -/
structure ContainerOverrides where
  command : List String
  resourceRequirements : List ResourceRequirement
deriving DecidableEq, Repr

/-- The full request handed to `batch.submit_job`.  `dependsOn = none` models
a call in which the keyword is absent altogether. -/
structure SubmitJobRequest where
  jobDefinition : String
  jobName : String
  jobQueue : String
  containerOverrides : ContainerOverrides
  dependsOn : Option (List Dependency)
deriving DecidableEq, Repr

/-- The dictionary returned by `get_batch_resources` (nbhelpers.py lines
147-154): the six physical resource ids scanned out of the CloudFormation
stack resource summaries.  The scan itself is an external CloudFormation
call, so the bundle is taken as input by the submission functions. -/
structure BatchResources where
  gpu_job_definition : String
  gpu_job_queue : String
  cpu_job_definition : String
  cpu_job_queue : String
  download_job_definition : String
  download_job_queue : String
deriving DecidableEq, Repr

/-- The parameters of `submit_batch_alphafold_job` (lines 486-512), in source
order.  `stack_name` is omitted: stack resolution is an external
CloudFormation lookup, modelled by passing the resolved `BatchResources`
directly.  `is_prokaryote_list` and `features_paths` carry the already
formatted text that the f-string interpolates. -/
structure AlphafoldJobArgs where
  job_name : String
  fasta_paths : String
  s3_bucket : String
  is_prokaryote_list : Option String
  data_dir : String
  output_dir : String
  uniref90_database_path : String
  mgnify_database_path : String
  small_bfd_database_path : String
  pdb70_database_path : String
  template_mmcif_dir : String
  max_template_date : String
  obsolete_pdbs_path : String
  db_preset : String
  model_preset : String
  benchmark : Bool
  use_precomputed_msas : Bool
  features_paths : Option String
  run_features_only : Bool
  logtostderr : Bool
  cpu : Int
  memory : Int
  gpu : Int
  depends_on : Option String
deriving DecidableEq, Repr

/-- The `command` list built at lines 519-556: thirteen unconditional
`--key=value` tokens followed by the six conditional appends, in source
order. -/
def alphafoldCommand (a : AlphafoldJobArgs) : List String :=
  ["--fasta_paths=" ++ a.fasta_paths,
   "--uniref90_database_path=" ++ a.uniref90_database_path,
   "--mgnify_database_path=" ++ a.mgnify_database_path,
   "--pdb70_database_path=" ++ a.pdb70_database_path,
   "--small_bfd_database_path=" ++ a.small_bfd_database_path,
   "--data_dir=" ++ a.data_dir,
   "--template_mmcif_dir=" ++ a.template_mmcif_dir,
   "--obsolete_pdbs_path=" ++ a.obsolete_pdbs_path,
   "--output_dir=" ++ a.output_dir,
   "--max_template_date=" ++ a.max_template_date,
   "--db_preset=" ++ a.db_preset,
   "--model_preset=" ++ a.model_preset,
   "--s3_bucket=" ++ a.s3_bucket]
  ++ (match a.is_prokaryote_list with
      | some v => ["--is_prokaryote_list=" ++ v]
      | none => [])
  ++ (if a.benchmark then ["--benchmark"] else [])
  ++ (if a.use_precomputed_msas then ["--use_precomputed_msas"] else [])
  ++ (match a.features_paths with
      | some v => ["--features_paths=" ++ v]
      | none => [])
  ++ (if a.run_features_only then ["--run_features_only"] else [])
  ++ (if a.logtostderr then ["--logtostderr"] else [])

/-- Embedding of `submit_batch_alphafold_job` (lines 486-585).  Builds the container
overrides (command plus VCPU/MEMORY sizing, `str(memory * 1000)`), selects
the GPU or CPU definition/queue pair on `gpu > 0` appending a GPU
requirement in the GPU branch, and attaches a single SEQUENTIAL dependency
exactly when `depends_on` is not `None`.  The value returned is the request
record handed to `batch.submit_job`. -/
def submit_batch_alphafold_job (br : BatchResources) (a : AlphafoldJobArgs) :
    SubmitJobRequest :=
  let baseRequirements : List ResourceRequirement :=
    [⟨toString a.cpu, "VCPU"⟩, ⟨toString (a.memory * 1000), "MEMORY"⟩]
  let sel : String × String × List ResourceRequirement :=
    if 0 < a.gpu then
      (br.gpu_job_definition, br.gpu_job_queue,
        baseRequirements ++ [⟨toString a.gpu, "GPU"⟩])
    else
      (br.cpu_job_definition, br.cpu_job_queue, baseRequirements)
  match a.depends_on with
  | none =>
      { jobDefinition := sel.1, jobName := a.job_name, jobQueue := sel.2.1,
        containerOverrides := ⟨alphafoldCommand a, sel.2.2⟩,
        dependsOn := none }
  | some d =>
      { jobDefinition := sel.1, jobName := a.job_name, jobQueue := sel.2.1,
        containerOverrides := ⟨alphafoldCommand a, sel.2.2⟩,
        dependsOn := some [⟨d, "SEQUENTIAL"⟩] }

/-- Embedding of `submit_download_data_job` (lines 587-623): three-token command, fixed
download definition/queue, VCPU/MEMORY sizing, no dependency. -/
def submit_download_data_job (br : BatchResources) (job_name script : String)
    (cpu memory : Int) (download_dir download_mode : String) :
    SubmitJobRequest :=
  { jobDefinition := br.download_job_definition,
    jobName := job_name,
    jobQueue := br.download_job_queue,
    containerOverrides :=
      ⟨[script, download_dir, download_mode],
       [⟨toString cpu, "VCPU"⟩, ⟨toString (memory * 1000), "MEMORY"⟩]⟩,
    dependsOn := none }

/-- The request of `submit_download_data_job` applied to the source's default parameter
values (lines 588-594): `job_name="download_job"`,
`script="scripts/download_all_data.sh"`, `cpu=4`, `memory=16`,
`download_dir="/fsx"`, `download_mode="reduced_db"`. -/
def submit_download_data_job_defaults (br : BatchResources) : SubmitJobRequest :=
  submit_download_data_job br "download_job" "scripts/download_all_data.sh"
    4 16 "/fsx" "reduced_db"

/-- C1: for every call to `submit_batch_alphafold_job` with `gpu > 0` the
submitted job definition and queue are the GPU pair of the resource bundle
and the resource requirements contain exactly one GPU entry, with value
`str(gpu)`; with `gpu == 0` the CPU pair is used and no GPU entry is
present. -/
theorem gpu_routing_invariant (br : BatchResources) (a : AlphafoldJobArgs) :
    (0 < a.gpu →
      (submit_batch_alphafold_job br a).jobDefinition = br.gpu_job_definition ∧
      (submit_batch_alphafold_job br a).jobQueue = br.gpu_job_queue ∧
      ((submit_batch_alphafold_job br a).containerOverrides.resourceRequirements.filter
          (fun r => r.type == "GPU")) = [⟨toString a.gpu, "GPU"⟩]) ∧
    (a.gpu = 0 →
      (submit_batch_alphafold_job br a).jobDefinition = br.cpu_job_definition ∧
      (submit_batch_alphafold_job br a).jobQueue = br.cpu_job_queue ∧
      ((submit_batch_alphafold_job br a).containerOverrides.resourceRequirements.filter
          (fun r => r.type == "GPU")) = []) := by
  constructor
  · intro hgpu
    cases hd : a.depends_on <;>
      simp [submit_batch_alphafold_job, hd, hgpu, List.filter]
  · intro hgpu
    have : ¬ (0 < a.gpu) := by omega
    cases hd : a.depends_on <;>
      simp [submit_batch_alphafold_job, hd, this, List.filter]

/-- A concrete resource bundle used by the witnesses. -/
def sampleResources : BatchResources :=
  ⟨"gpu-def", "gpu-queue", "cpu-def", "cpu-queue", "dl-def", "dl-queue"⟩

/-- Concrete fold-job arguments used by the witnesses (source defaults with
one GPU). -/
def sampleArgsGPU : AlphafoldJobArgs :=
  { job_name := "job1", fasta_paths := "s3://b/f.fasta", s3_bucket := "b",
    is_prokaryote_list := none, data_dir := "/mnt/data_dir/fsx",
    output_dir := "alphafold",
    uniref90_database_path := "/mnt/uniref90_database_path/uniref90.fasta",
    mgnify_database_path := "/mnt/mgnify_database_path/mgy_clusters_2018_12.fa",
    small_bfd_database_path := "/mnt/small_bfd_database_path/bfd-first_non_consensus_sequences.fasta",
    pdb70_database_path := "/mnt/pdb70_database_path/pdb70",
    template_mmcif_dir := "/mnt/template_mmcif_dir/mmcif_files",
    max_template_date := "2026-10-12",
    obsolete_pdbs_path := "/mnt/obsolete_pdbs_path/obsolete.dat",
    db_preset := "reduced_dbs", model_preset := "monomer",
    benchmark := false, use_precomputed_msas := false, features_paths := none,
    run_features_only := false, logtostderr := true,
    cpu := 4, memory := 16, gpu := 1, depends_on := none }

/-- Concrete fold-job arguments with `gpu = 0` and a predecessor job id. -/
def sampleArgsCPU : AlphafoldJobArgs :=
  { sampleArgsGPU with gpu := 0, depends_on := some "job-0000" }

theorem gpu_routing_invariant_witness :
    ((submit_batch_alphafold_job sampleResources sampleArgsGPU).jobDefinition
        = "gpu-def" ∧
      (submit_batch_alphafold_job sampleResources sampleArgsGPU).jobQueue
        = "gpu-queue" ∧
      ((submit_batch_alphafold_job sampleResources sampleArgsGPU).containerOverrides.resourceRequirements.filter
          (fun r => r.type == "GPU")) = [⟨"1", "GPU"⟩]) ∧
    ((submit_batch_alphafold_job sampleResources sampleArgsCPU).jobDefinition
        = "cpu-def" ∧
      (submit_batch_alphafold_job sampleResources sampleArgsCPU).jobQueue
        = "cpu-queue" ∧
      ((submit_batch_alphafold_job sampleResources sampleArgsCPU).containerOverrides.resourceRequirements.filter
          (fun r => r.type == "GPU")) = []) :=
  ⟨(gpu_routing_invariant sampleResources sampleArgsGPU).1 (by decide),
   (gpu_routing_invariant sampleResources sampleArgsCPU).2 (by decide)⟩

/-- C3: a non-null `depends_on` yields `dependsOn` equal to the one-element
list `[{jobId: depends_on, type: SEQUENTIAL}]`; a null `depends_on` yields a
request with no `dependsOn` field at all. -/
theorem dependency_attachment (br : BatchResources) (a : AlphafoldJobArgs) :
    (submit_batch_alphafold_job br a).dependsOn
      = a.depends_on.map (fun d => [⟨d, "SEQUENTIAL"⟩]) := by
  cases hd : a.depends_on <;> simp [submit_batch_alphafold_job, hd]

/-- C4: the MEMORY entry of the submitted resource requirements, for both
submission functions, is exactly one entry whose value is `str(memory * 1000)`
(GB to MB). -/
theorem memory_conversion (br : BatchResources) (a : AlphafoldJobArgs)
    (job_name script : String) (cpu memory : Int)
    (download_dir download_mode : String) :
    ((submit_batch_alphafold_job br a).containerOverrides.resourceRequirements.filter
        (fun r => r.type == "MEMORY"))
      = [⟨toString (a.memory * 1000), "MEMORY"⟩] ∧
    ((submit_download_data_job br job_name script cpu memory download_dir
            download_mode).containerOverrides.resourceRequirements.filter
        (fun r => r.type == "MEMORY"))
      = [⟨toString (memory * 1000), "MEMORY"⟩] := by
  constructor
  · cases hd : a.depends_on <;> by_cases hg : 0 < a.gpu <;>
      simp [submit_batch_alphafold_job, hd, hg, List.filter]
  · simp [submit_download_data_job, List.filter]

/-- C5: `submit_download_data_job` with every argument left at its default
produces the command `["scripts/download_all_data.sh", "/fsx", "reduced_db"]`
and resource requirements `[{value 4, VCPU}, {value 16000, MEMORY}]`; and for
all arguments it targets the download definition/queue of the bundle with no
dependency. -/
theorem download_job_defaults (br : BatchResources) :
    (submit_download_data_job_defaults br).containerOverrides.command
        = ["scripts/download_all_data.sh", "/fsx", "reduced_db"] ∧
    (submit_download_data_job_defaults br).containerOverrides.resourceRequirements
        = [⟨"4", "VCPU"⟩, ⟨"16000", "MEMORY"⟩] ∧
    ∀ job_name script cpu memory download_dir download_mode,
      (submit_download_data_job br job_name script cpu memory download_dir
          download_mode).jobDefinition = br.download_job_definition ∧
      (submit_download_data_job br job_name script cpu memory download_dir
          download_mode).jobQueue = br.download_job_queue ∧
      (submit_download_data_job br job_name script cpu memory download_dir
          download_mode).dependsOn = none := by
  refine ⟨rfl, rfl, ?_⟩
  intro job_name script cpu memory download_dir download_mode
  exact ⟨rfl, rfl, rfl⟩

/-- Embedding of `create_job_name` (lines 77-89).  `now` is the string produced by
`datetime.now().strftime("%Y%m%dT%H%M%S")` (the clock read).  The suffix
branch executes `sub("\W", "_", suffix)`, but the module never imports `sub`
(there is no `from re import sub` and no `import re`), so in Python that
branch raises `NameError: name 'sub' is not defined`; the error is modelled
with `Except.error`. -/
def create_job_name (now : String) (suffix : Option String) :
    Except String String :=
  match suffix with
  | none => Except.ok now
  | some _ => Except.error "NameError: name 'sub' is not defined"

/-- C2 (code bug): `create_job_name "My Protein!"` does not return
`"<timestamp>_My_Protein_"`; the suffix branch raises `NameError` because
`sub` is never imported, contradicting the sanitizing intent stated in the
code's own comment (lines 86-87). -/
theorem create_job_name_name_error :
    create_job_name "20261012T000000" (some "My Protein!")
        = Except.error "NameError: name 'sub' is not defined" ∧
      create_job_name "20261012T000000" none = Except.ok "20261012T000000" :=
  ⟨rfl, rfl⟩

/-- Python's `range(start, stop, step)` for a positive `step`: the elements
`start + step * i` for `i < ceil((stop - start) / step)` (the length formula
CPython uses). -/
def pyRange (start stop step : Nat) : List Nat :=
  (List.range ((stop - start + (step - 1)) / step)).map
    (fun i => start + step * i)

/-- The y-axis tick positions computed by `plot_msa` at line 244:
`range(0, total_msa_size + 1, max(1, int(total_msa_size / 3)))`, where
`total_msa_size` is the number of deduplicated MSA sequences.  Python's
`int(x / 3)` on a nonnegative integer `x` is floor division, i.e. `Nat`
division. -/
def plot_msa_yticks (total_msa_size : Nat) : List Nat :=
  pyRange 0 (total_msa_size + 1) (max 1 (total_msa_size / 3))

/-- C8 counterexample: a deduplicated MSA of total size 5 gets tick positions
`[0, 1, 2, 3, 4, 5]` — six ticks, not at most 3. -/
theorem plot_msa_yticks_five_counterexample :
    plot_msa_yticks 5 = [0, 1, 2, 3, 4, 5] ∧
      ¬ (plot_msa_yticks 5).length ≤ 3 := by
  constructor <;> decide

/-- Helper: the number of ticks is `T / max 1 (T / 3) + 1`. -/
theorem plot_msa_yticks_length (T : Nat) :
    (plot_msa_yticks T).length = T / max 1 (T / 3) + 1 := by
  have hs : 1 ≤ max 1 (T / 3) := le_max_left _ _
  simp only [plot_msa_yticks, pyRange, List.length_map, List.length_range]
  have h1 : T + 1 - 0 + (max 1 (T / 3) - 1) = T + max 1 (T / 3) := by omega
  rw [h1, Nat.add_div_right _ (by omega)]

/-- C8 amended: the y-axis tick positions of `plot_msa` are
`range(0, T + 1, max(1, int(T / 3)))`, which yields at most 6 ticks (six are
reached at `T = 5`). -/
theorem plot_msa_yticks_at_most_six (T : Nat) :
    plot_msa_yticks T = pyRange 0 (T + 1) (max 1 (T / 3)) ∧
      (plot_msa_yticks T).length ≤ 6 := by
  refine ⟨rfl, ?_⟩
  rw [plot_msa_yticks_length]
  rcases Nat.lt_or_ge T 6 with h | h
  · interval_cases T <;> decide
  · have h3 : 2 ≤ T / 3 := by omega
    have hmax : max 1 (T / 3) = T / 3 := by omega
    rw [hmax]
    have hlt : T / (T / 3) < 5 := by
      rw [Nat.div_lt_iff_lt_mul (by omega)]
      have := Nat.div_add_mod T 3
      have := Nat.mod_lt T (show 0 < 3 by omega)
      omega
    omega


/-- One CloudWatch log event as returned by `get_log_events`: epoch-ms
`timestamp`, the `message`, and the epoch-ms `ingestionTime`. -/
structure LogEvent where
  timestamp : Int
  message : String
  ingestionTime : Int
deriving DecidableEq, Repr

/-- One row of the table `get_batch_logs` returns: `ingestionTime` has been
dropped and `timestamp` replaced by `datetime.fromtimestamp(x / 1000)`.  The
`datetime` value is represented by its argument `x / 1000` (true division),
i.e. the seconds-since-epoch as a rational. -/
structure LogRow where
  timestamp : ℚ
  message : String
deriving DecidableEq, Repr

/-- Outcome of the external `logs_client.get_log_events` call: either the
stream is missing (`ResourceNotFoundException`) or it yields a list of
events. -/
inductive GetLogEventsResult where
  | resourceNotFound
  | events (evts : List LogEvent)
deriving DecidableEq, Repr

/-- Embedding of `get_batch_logs` (lines 184-202).  A missing stream is converted to the
informational string (`Sum.inl`).  Otherwise the events are loaded into a
pandas DataFrame; when the event list is empty, `pd.DataFrame.from_dict([])`
has no columns, so the attribute access `logs.timestamp` raises
`AttributeError` (modelled by `Except.error`); with at least one event the
rows are returned with converted timestamps and without `ingestionTime`
(`Sum.inr`). -/
def get_batch_logs (fetch : GetLogEventsResult) (logStreamName : String) :
    Except String (Sum String (List LogRow)) :=
  match fetch with
  | .resourceNotFound =>
      Except.ok (Sum.inl ("Log stream " ++ logStreamName
        ++ " does not exist. Please try again in a few minutes"))
  | .events [] =>
      Except.error "AttributeError: DataFrame object has no attribute timestamp"
  | .events evts =>
      Except.ok (Sum.inr (evts.map
        (fun e => ⟨(e.timestamp : ℚ) / 1000, e.message⟩)))

/-- C7 counterexample: when the stream exists but `get_log_events` returns
zero events, `get_batch_logs` does not return the events as a row structure —
it raises — so the claim's "for every other input" part is false at the
empty event list. -/
theorem get_batch_logs_empty_events_counterexample :
    get_batch_logs (GetLogEventsResult.events []) "stream-1"
        ≠ Except.ok (Sum.inr ([] : List LogRow)) := by
  simp [get_batch_logs]

/-- C7 amended: a missing log stream yields the "try again later" string
rather than a failure, and every fetch yielding at least one event is
returned as rows with epoch-ms timestamps converted and `ingestionTime`
dropped (with zero events the code raises instead). -/
theorem get_batch_logs_behavior (name : String) (evts : List LogEvent)
    (hne : evts ≠ []) :
    get_batch_logs GetLogEventsResult.resourceNotFound name
        = Except.ok (Sum.inl ("Log stream " ++ name
          ++ " does not exist. Please try again in a few minutes")) ∧
    get_batch_logs (GetLogEventsResult.events evts) name
        = Except.ok (Sum.inr (evts.map
          (fun e => ⟨(e.timestamp : ℚ) / 1000, e.message⟩))) := by
  refine ⟨rfl, ?_⟩
  match evts, hne with
  | e :: rest, _ => rfl

/-- A concrete event for the C7 witness. -/
def sampleEvent : LogEvent := ⟨1700000000000, "hello", 1700000000500⟩

theorem get_batch_logs_behavior_witness :
    get_batch_logs GetLogEventsResult.resourceNotFound "stream-1"
        = Except.ok (Sum.inl ("Log stream stream-1"
          ++ " does not exist. Please try again in a few minutes")) ∧
    get_batch_logs (GetLogEventsResult.events [sampleEvent]) "stream-1"
        = Except.ok (Sum.inr [⟨(1700000000000 : ℚ) / 1000, "hello"⟩]) :=
  get_batch_logs_behavior "stream-1" [sampleEvent] (by simp)

/-- The serialized FASTA text `upload_fasta_to_s3` (lines 92-115) writes for
the records built from `sequences` and `ids`: `SeqIO.write` is an external
Biopython call, abstracted by the per-record serializer `serialize id seq`.
The loop reads `ids[i]` for each index of `sequences`, which raises
`IndexError` (aborting before any upload) when `ids` is shorter, hence the
`Option`. -/
def fastaBody (serialize : String → String → String)
    (sequences ids : List String) : Option String :=
  if sequences.length ≤ ids.length then
    some (String.join (List.zipWith serialize ids sequences))
  else
    none

/-- The content of the object uploaded by `upload_fasta_to_s3`: the file
`_tmp.fasta` is opened in append mode (`open(file_out, "a")`, line 105), so
whatever content a pre-existing `_tmp.fasta` holds (`preexisting`, `none`
when no such file exists) is followed by the newly serialized records, and
the whole file is uploaded. -/
def upload_fasta_to_s3 (serialize : String → String → String)
    (preexisting : Option String) (sequences ids : List String) :
    Option String :=
  (fastaBody serialize sequences ids).map
    (fun body => preexisting.getD "" ++ body)

/-- A concrete FASTA serializer for the C10 counterexample and witness (the
exact Biopython record layout is irrelevant to the append semantics). -/
def sampleSerialize (id seq : String) : String :=
  ">" ++ id ++ "\n" ++ seq ++ "\n"

/-- C10 counterexample: with a pre-existing but empty `_tmp.fasta` the
uploaded object still equals exactly the serialization of the given
sequences, so "equals exactly the serialization only when no such file
pre-exists" is false. -/
theorem upload_fasta_preexisting_empty_counterexample :
    upload_fasta_to_s3 sampleSerialize (some "") ["MKV"] ["seq1"]
      = some (String.join [sampleSerialize "seq1" "MKV"]) := rfl

/-- C10 amended: the uploaded object is the pre-existing `_tmp.fasta` content
followed by the newly serialized sequences, and it equals exactly the
serialization of the given sequences iff no such file pre-exists or the
pre-existing file is empty. -/
theorem upload_fasta_append_semantics (serialize : String → String → String)
    (preexisting : Option String) (sequences ids : List String)
    (body : String) (hbody : fastaBody serialize sequences ids = some body) :
    upload_fasta_to_s3 serialize preexisting sequences ids
        = some (preexisting.getD "" ++ body) ∧
      (upload_fasta_to_s3 serialize none sequences ids = some body) ∧
      (upload_fasta_to_s3 serialize preexisting sequences ids = some body
        ↔ preexisting.getD "" = "") := by
  refine ⟨by simp [upload_fasta_to_s3, hbody], by simp [upload_fasta_to_s3, hbody], ?_⟩
  simp only [upload_fasta_to_s3, hbody, Option.map_some', Option.some_inj]
  constructor
  · intro h
    have hdata := congrArg String.data h
    rw [String.data_append] at hdata
    have hlen := congrArg List.length hdata
    rw [List.length_append] at hlen
    have hnil : (preexisting.getD "").data = [] := by
      have h0 : (preexisting.getD "").data.length = 0 := by omega
      exact List.eq_nil_of_length_eq_zero h0
    exact String.ext hnil
  · intro h
    rw [h]
    simp

theorem upload_fasta_append_semantics_witness :
    upload_fasta_to_s3 sampleSerialize (some "old") ["MKV"] ["seq1"]
        = some ("old" ++ String.join [sampleSerialize "seq1" "MKV"]) ∧
      (upload_fasta_to_s3 sampleSerialize none ["MKV"] ["seq1"]
        = some (String.join [sampleSerialize "seq1" "MKV"])) ∧
      (upload_fasta_to_s3 sampleSerialize (some "old") ["MKV"] ["seq1"]
          = some (String.join [sampleSerialize "seq1" "MKV"])
        ↔ (Option.getD (some "old") "") = "") :=
  upload_fasta_append_semantics sampleSerialize (some "old") ["MKV"] ["seq1"]
    (String.join [sampleSerialize "seq1" "MKV"]) rfl

/-- The chain alphabet `alphabet_list` (line 74): `list(ascii_uppercase + ascii_lowercase)`. -/
def alphabet_list : List Char :=
  "ABCDEFGHIJKLMNOPQRSTUVWXYZabcdefghijklmnopqrstuvwxyz".toList

/-- Python slicing `l[a:b]` on a list of characters, for nonnegative
bounds: out-of-range bounds clip rather than fail. -/
def pySlice (l : List Char) (a b : Nat) : List Char :=
  (l.drop a).take (b - a)

/-- The value of a nonempty all-digit character run, `none` otherwise. -/
def digitsVal (s : List Char) : Option Nat :=
  if s = [] then none
  else if s.all Char.isDigit then
    some (s.foldl (fun acc c => 10 * acc + (c.toNat - 48)) 0)
  else none

/-- Python `int(s)` on a string: surrounding whitespace is stripped, an
optional sign precedes the digits; anything else raises `ValueError`
(modelled by `none`). -/
def pyInt (s : List Char) : Option Int :=
  let t := ((s.dropWhile Char.isWhitespace).reverse.dropWhile
    Char.isWhitespace).reverse
  match t with
  | '-' :: rest => (digitsVal rest).map (fun v => -(v : Int))
  | '+' :: rest => (digitsVal rest).map (fun v => (v : Int))
  | _ => (digitsVal t).map (fun v => (v : Int))

/-- Lookup in the dictionary built at lines 421-426 of `read_pdb_renum`:
each `(L, c)` drawn from `zip(Ls, alphabet_list)` maps the keys
`[L_init, L_init + L)` to `c`, with `L_init` advancing by `L`.  The ranges
are disjoint, so membership in the first matching range is exactly the dict
lookup; a missing key is `none` (Python `KeyError`). -/
def new_chainAux : Nat → List (Nat × Char) → Nat → Option Char
  | _, [], _ => none
  | L_init, (L, c) :: rest, i =>
      if L_init ≤ i ∧ i < L_init + L then some c
      else new_chainAux (L_init + L) rest i

/-- The `new_chain` mapping of `read_pdb_renum` for per-chain lengths `Ls`. -/
def new_chain (Ls : List Nat) (i : Nat) : Option Char :=
  new_chainAux 0 (Ls.zip alphabet_list) i

/-- Python `"%4i" % n`: the decimal text of `n`, left-padded with spaces to
width 4. -/
def fmtInt4 (n : Int) : List Char :=
  let s := (toString n).toList
  List.replicate (4 - s.length) ' ' ++ s

/-- The test `line[:4] == "ATOM"` (line 430). -/
def isAtomLine (line : List Char) : Bool :=
  pySlice line 0 4 == "ATOM".toList

/-- The `(residue number, chain identifier)` pair read off an atom record:
`int(line[22 : 22 + 5])` and `line[21:22]` (lines 431-432). -/
def parsePair (line : List Char) : Option (Int × List Char) :=
  (pyInt (pySlice line 22 27)).map (fun r => (r, pySlice line 21 22))

/-- The loop state of `read_pdb_renum` (lines 427-428): the running counter
`n`, the transition trackers `resnum_` and `chain_` (initially `1` and
`"A"`), and the accumulated output records. -/
structure RenumState where
  n : Nat
  resnum_ : Int
  chain_ : List Char
  pdb_out : List (List Char)
deriving DecidableEq, Repr

/-- The rewritten record appended for an atom line under counter value `n`
(lines 436-441): `"%s%4i%s" % (line[:22], n, line[26:])` without `Ls`, and
`"%s%s%4i%s" % (line[:21], new_chain[n - 1], n, line[26:])` with `Ls`
(where a missing `new_chain` key is a `KeyError`, i.e. `none`). -/
def outLine : Option (List Nat) → List Char → Nat → Option (List Char)
  | none, line, n => some (pySlice line 0 22 ++ fmtInt4 n ++ line.drop 26)
  | some ls, line, n =>
      (new_chain ls (n - 1)).map
        (fun c => pySlice line 0 21 ++ [c] ++ fmtInt4 n ++ line.drop 26)

/-- One iteration of the `read_pdb_renum` loop (lines 429-441): non-atom
lines are skipped; for an atom line the `(resnum, chain)` pair is read, the
trackers and counter advance when the pair differs from the trackers, and
the rewritten record is appended. -/
def renumStep (Ls : Option (List Nat)) (st : RenumState) (line : List Char) :
    Option RenumState :=
  if isAtomLine line then
    match pyInt (pySlice line 22 27) with
    | none => none
    | some resnum =>
        if resnum ≠ st.resnum_ ∨ pySlice line 21 22 ≠ st.chain_ then
          match outLine Ls line (st.n + 1) with
          | none => none
          | some out =>
              some ⟨st.n + 1, resnum, pySlice line 21 22, st.pdb_out ++ [out]⟩
        else
          match outLine Ls line st.n with
          | none => none
          | some out =>
              some ⟨st.n, st.resnum_, st.chain_, st.pdb_out ++ [out]⟩
  else some st

/-- Embedding of `read_pdb_renum` (lines 414-442) on the lines of the structure file,
returning the rewritten atom records in order (the source returns their
concatenation `"".join(pdb_out)`); `none` models an uncaught exception
(unparsable residue field or missing `new_chain` key). -/
def read_pdb_renum (lines : List (List Char)) (Ls : Option (List Nat)) :
    Option (List (List Char)) :=
  (lines.foldlM (renumStep Ls) ⟨1, 1, ['A'], []⟩).map RenumState.pdb_out

/-- The atom records of the input, in order. -/
def atomLines (lines : List (List Char)) : List (List Char) :=
  lines.filter isAtomLine

/-- The sequence of counter values assigned to successive atom records whose
pairs are `pairs`, starting from tracker value `prev` and counter `n`: the
counter increments exactly on a pair change. -/
def counterSeq : Int × List Char → Nat → List (Int × List Char) → List Nat
  | _, _, [] => []
  | prev, n, p :: rest =>
      (if p ≠ prev then n + 1 else n)
        :: counterSeq p (if p ≠ prev then n + 1 else n) rest

/-- The counter values assigned by `read_pdb_renum` to its atom records,
from the fixed initial trackers `resnum_ = 1`, `chain_ = "A"` and counter
`1`. -/
def counters (pairs : List (Int × List Char)) : List Nat :=
  counterSeq (1, ['A']) 1 pairs

/-- Modelled from the spec: the chain-alphabet letter of the chain segment
containing index `i` under the cumulative boundaries of the per-chain
lengths `Ls` — index `i` falls in the first segment when `i < L₀`, else
recurse on the remaining segments with `i - L₀`. -/
def segmentLetter : List Nat → List Char → Nat → Option Char
  | [], _, _ => none
  | _ :: _, [], _ => none
  | L :: rest, c :: cs, i =>
      if i < L then some c else segmentLetter rest cs (i - L)

/-- The dict built from `zip(Ls, alphabet_list)` looks indices up by
segment: shifting every key by the running offset `d` reduces it to
`segmentLetter`. -/
lemma new_chainAux_eq_segmentLetter :
    ∀ (Ls : List Nat) (alpha : List Char) (d i : Nat),
      new_chainAux d (Ls.zip alpha) (d + i) = segmentLetter Ls alpha i := by
  intro Ls
  induction Ls with
  | nil =>
      intro alpha d i
      simp [new_chainAux, segmentLetter]
  | cons L rest ih =>
      intro alpha d i
      cases alpha with
      | nil => simp [new_chainAux, segmentLetter]
      | cons c cs =>
          simp only [List.zip_cons_cons, new_chainAux, segmentLetter]
          by_cases hi : i < L
          · have hcond : d ≤ d + i ∧ d + i < d + L := by omega
            rw [if_pos hcond, if_pos hi]
          · have hcond : ¬ (d ≤ d + i ∧ d + i < d + L) := by omega
            rw [if_neg hcond, if_neg hi]
            have h2 : d + i = (d + L) + (i - L) := by omega
            rw [h2]
            exact ih cs (d + L) (i - L)

/-- The source's `new_chain` dict agrees with the spec-side segment
lookup. -/
lemma new_chain_eq_segmentLetter (Ls : List Nat) (i : Nat) :
    new_chain Ls i = segmentLetter Ls alphabet_list i := by
  have h := new_chainAux_eq_segmentLetter Ls alphabet_list 0 i
  simpa [new_chain] using h

/-- Non-atom lines are skipped by the loop, so the run over all lines equals
the run over the atom records only. -/
lemma foldlM_renumStep_filter (Ls : Option (List Nat)) :
    ∀ (lines : List (List Char)) (st : RenumState),
      lines.foldlM (renumStep Ls) st
        = (atomLines lines).foldlM (renumStep Ls) st := by
  intro lines
  induction lines with
  | nil => intro st; rfl
  | cons l rest ih =>
      intro st
      by_cases hl : isAtomLine l
      · have hfl : atomLines (l :: rest) = l :: atomLines rest := by
          simp [atomLines, List.filter_cons, hl]
        rw [hfl, List.foldlM_cons, List.foldlM_cons]
        cases hstep : renumStep Ls st l with
        | none => rfl
        | some st1 => simp only [Option.bind_eq_bind, Option.some_bind]; exact ih st1
      · have hstep : renumStep Ls st l = some st := by
          simp [renumStep, hl]
        have hfl : atomLines (l :: rest) = atomLines rest := by
          simp [atomLines, List.filter_cons, hl]
        rw [hfl, List.foldlM_cons, hstep]
        simpa using ih st

/-- In any counter sequence, position `i + 1` increments over position `i`
exactly when the corresponding pairs differ. -/
lemma counterSeq_succ_get :
    ∀ (pairs : List (Int × List Char)) (prev : Int × List Char) (n0 i : Nat),
      i + 1 < pairs.length →
      (counterSeq prev n0 pairs).getD (i + 1) 0
        = if pairs.getD (i + 1) (0, []) ≠ pairs.getD i (0, []) then
            (counterSeq prev n0 pairs).getD i 0 + 1
          else (counterSeq prev n0 pairs).getD i 0 := by
  intro pairs
  induction pairs with
  | nil => intro prev n0 i h; simp at h
  | cons p rest ih =>
      intro prev n0 i h
      cases i with
      | zero =>
          cases rest with
          | nil => simp at h
          | cons q rest2 =>
              simp [counterSeq]
      | succ j =>
          have hj : j + 1 < rest.length := by
            simpa using h
          simpa [counterSeq] using
            ih p (if p ≠ prev then n0 + 1 else n0) j hj

/-- Effect of a Python loop whose body may raise, applied elementwise to a
list: the whole run aborts (yields `none`) as soon as one element fails,
otherwise the collected results come back in order. -/
def raisingMap {α β : Type} (f : α → Option β) : List α → Option (List β)
  | [] => some []
  | a :: as => (f a).bind fun b => (raisingMap f as).map fun bs => b :: bs

lemma raisingMap_cons_of {α β : Type} {f : α → Option β} {a : α}
    {as : List α} {b : β} {bs : List β} (hb : f a = some b)
    (hbs : raisingMap f as = some bs) :
    raisingMap f (a :: as) = some (b :: bs) := by
  unfold raisingMap
  rw [hb, hbs]
  rfl

lemma raisingMap_cons_elim {α β : Type} {f : α → Option β} {a : α}
    {as : List α} {ys : List β} (h : raisingMap f (a :: as) = some ys) :
    ∃ b bs, f a = some b ∧ raisingMap f as = some bs ∧ ys = b :: bs := by
  unfold raisingMap at h
  cases hb : f a with
  | none => rw [hb] at h; simp at h
  | some b =>
      rw [hb] at h
      cases hbs : raisingMap f as with
      | none => rw [hbs] at h; simp at h
      | some bs =>
          rw [hbs] at h
          refine ⟨b, bs, rfl, rfl, ?_⟩
          simpa using h.symm

/-- Characterization of a successful run of the loop over atom records,
from any starting state: the records parse to a pair list, and the output
records are obtained by rewriting each record with its counter value from
`counterSeq`. -/
lemma run_chars (Ls : Option (List Nat)) :
    ∀ (ls : List (List Char)) (st st' : RenumState),
      (∀ l ∈ ls, isAtomLine l = true) →
      ls.foldlM (renumStep Ls) st = some st' →
      ∃ pairs outs,
        raisingMap parsePair ls = some pairs ∧
        st'.pdb_out = st.pdb_out ++ outs ∧
        raisingMap (fun q => outLine Ls q.1 q.2)
          (ls.zip (counterSeq (st.resnum_, st.chain_) st.n pairs)) = some outs := by
  intro ls
  induction ls with
  | nil =>
      intro st st' _ hrun
      refine ⟨[], [], rfl, ?_, rfl⟩
      have hst : st = st' := by simpa using hrun
      simp [← hst]
  | cons l rest ih =>
      intro st st' hatom hrun
      have hl : isAtomLine l = true := hatom l (List.mem_cons_self _ _)
      rw [List.foldlM_cons] at hrun
      cases hstep : renumStep Ls st l with
      | none =>
          rw [hstep] at hrun
          simp at hrun
      | some st1 =>
          rw [hstep] at hrun
          simp only [Option.bind_eq_bind, Option.some_bind] at hrun
          simp only [renumStep, hl, if_true] at hstep
          cases hres : pyInt (pySlice l 22 27) with
          | none => simp [hres] at hstep
          | some resnum =>
              simp only [hres] at hstep
              have hparseL : parsePair l = some (resnum, pySlice l 21 22) := by
                simp [parsePair, hres]
              split at hstep
              case isTrue hc =>
                cases hout : outLine Ls l (st.n + 1) with
                | none => simp [hout] at hstep
                | some out0 =>
                    simp only [hout] at hstep
                    have hst1 :
                        st1 = ⟨st.n + 1, resnum, pySlice l 21 22,
                          st.pdb_out ++ [out0]⟩ :=
                      (Option.some.inj hstep).symm
                    subst hst1
                    obtain ⟨ps, outs, hmap, hpdb, houts⟩ :=
                      ih _ st' (fun x hx => hatom x (List.mem_cons_of_mem _ hx))
                        hrun
                    refine ⟨(resnum, pySlice l 21 22) :: ps, out0 :: outs, ?_, ?_, ?_⟩
                    · exact raisingMap_cons_of hparseL hmap
                    · rw [hpdb]
                      simp
                    · have hne : ((resnum, pySlice l 21 22) : Int × List Char)
                          ≠ (st.resnum_, st.chain_) := by
                        simp only [ne_eq, Prod.mk.injEq, not_and]
                        intro h1
                        rcases hc with h | h
                        · exact absurd h1 h
                        · intro h2; exact h h2
                      simp only [List.zip_cons_cons, counterSeq, if_pos hne]
                      exact raisingMap_cons_of hout houts
              case isFalse hc =>
                push_neg at hc
                cases hout : outLine Ls l st.n with
                | none => simp [hout] at hstep
                | some out0 =>
                    simp only [hout] at hstep
                    have hst1 :
                        st1 = ⟨st.n, st.resnum_, st.chain_,
                          st.pdb_out ++ [out0]⟩ :=
                      (Option.some.inj hstep).symm
                    subst hst1
                    obtain ⟨ps, outs, hmap, hpdb, houts⟩ :=
                      ih _ st' (fun x hx => hatom x (List.mem_cons_of_mem _ hx))
                        hrun
                    refine ⟨(resnum, pySlice l 21 22) :: ps, out0 :: outs, ?_, ?_, ?_⟩
                    · exact raisingMap_cons_of hparseL hmap
                    · rw [hpdb]
                      simp
                    · have heq : ((resnum, pySlice l 21 22) : Int × List Char)
                          = (st.resnum_, st.chain_) := by
                        rw [hc.1, hc.2]
                      simp only [List.zip_cons_cons, counterSeq,
                        if_neg (not_not_intro heq)]
                      rw [heq]
                      exact raisingMap_cons_of hout houts

/-- C6: on a successful run of `read_pdb_renum`, (1) the counter value of
each atom record past the first exceeds the previous record's counter by one
exactly when the `(residue number, chain)` pair changed, and (2) with
explicit per-chain lengths `Ls` every output atom record is the input record
with its chain letter rewritten to the chain-alphabet letter of the chain
segment containing it (segment of its sequential residue index, under the
cumulative boundaries of `Ls`) and its residue field rewritten to the
counter. -/
theorem read_pdb_renum_counters_and_chains (lines : List (List Char))
    (ls : List Nat) (pairs : List (Int × List Char)) (out : List (List Char))
    (hparse : raisingMap parsePair (atomLines lines) = some pairs)
    (hrun : read_pdb_renum lines (some ls) = some out) :
    (∀ i, i + 1 < pairs.length →
      (counters pairs).getD (i + 1) 0
        = if pairs.getD (i + 1) (0, []) ≠ pairs.getD i (0, []) then
            (counters pairs).getD i 0 + 1
          else (counters pairs).getD i 0) ∧
    raisingMap (fun q => (segmentLetter ls alphabet_list (q.2 - 1)).map
        (fun c => pySlice q.1 0 21 ++ [c] ++ fmtInt4 q.2 ++ q.1.drop 26))
      ((atomLines lines).zip (counters pairs)) = some out := by
  constructor
  · intro i hi
    exact counterSeq_succ_get pairs (1, ['A']) 1 i hi
  · unfold read_pdb_renum at hrun
    rw [foldlM_renumStep_filter] at hrun
    cases hfold : (atomLines lines).foldlM (renumStep (some ls))
        ⟨1, 1, ['A'], []⟩ with
    | none => rw [hfold] at hrun; simp at hrun
    | some stf =>
        rw [hfold] at hrun
        simp only [Option.map_some', Option.some.injEq] at hrun
        obtain ⟨ps, outs, hmap, hpdb, houts⟩ :=
          run_chars (some ls) (atomLines lines) ⟨1, 1, ['A'], []⟩ stf
            (fun x hx => List.of_mem_filter hx) hfold
        have hps : ps = pairs := by
          rw [hmap] at hparse
          exact Option.some.inj hparse
        subst hps
        have hout : out = outs := by
          rw [← hrun, hpdb]
          simp
        subst hout
        have hfun : (fun q : List Char × Nat =>
              (segmentLetter ls alphabet_list (q.2 - 1)).map
                (fun c => pySlice q.1 0 21 ++ [c] ++ fmtInt4 q.2 ++ q.1.drop 26))
            = (fun q : List Char × Nat => outLine (some ls) q.1 q.2) := by
          funext q
          simp [outLine, new_chain_eq_segmentLetter]
        rw [hfun]
        exact houts

/-- C9: `read_pdb_renum` compares the first atom record against the fixed
initial trackers `resnum_ = 1`, `chain_ = "A"`: the first output record
carries counter value 2 when the first record's pair differs from
`(1, "A")`, and 1 only when it equals it. -/
theorem read_pdb_renum_first_record_sentinel (lines : List (List Char))
    (l0 : List Char) (rest : List (List Char)) (p : Int × List Char)
    (out : List (List Char))
    (hatoms : atomLines lines = l0 :: rest)
    (hp : parsePair l0 = some p)
    (hrun : read_pdb_renum lines none = some out) :
    out.headD []
      = pySlice l0 0 22
        ++ fmtInt4 (if p ≠ ((1 : Int), ['A']) then 2 else 1)
        ++ l0.drop 26 := by
  unfold read_pdb_renum at hrun
  rw [foldlM_renumStep_filter, hatoms] at hrun
  cases hfold : (l0 :: rest).foldlM (renumStep none) ⟨1, 1, ['A'], []⟩ with
  | none => rw [hfold] at hrun; simp at hrun
  | some stf =>
      rw [hfold] at hrun
      simp only [Option.map_some', Option.some.injEq] at hrun
      have hatomall : ∀ x ∈ (l0 :: rest), isAtomLine x = true := by
        intro x hx
        rw [← hatoms] at hx
        exact List.of_mem_filter hx
      obtain ⟨ps, outs, hmap, hpdb, houts⟩ :=
        run_chars none (l0 :: rest) ⟨1, 1, ['A'], []⟩ stf hatomall hfold
      obtain ⟨p0, ps2, hp0, hpmap2, hpseq⟩ := raisingMap_cons_elim hmap
      have hp0p : p0 = p := by
        rw [hp] at hp0
        exact (Option.some.inj hp0).symm
      subst hp0p
      subst hpseq
      have houts2 : raisingMap (fun q => outLine none q.1 q.2)
          ((l0, if p0 ≠ ((1 : Int), ['A']) then 1 + 1 else 1) ::
            rest.zip (counterSeq p0
              (if p0 ≠ ((1 : Int), ['A']) then 1 + 1 else 1) ps2))
          = some outs := by
        simpa only [counterSeq, List.zip_cons_cons] using houts
      obtain ⟨o0, os, ho0, homap, hoseq⟩ := raisingMap_cons_elim houts2
      have ho0e : outLine none l0
          (if p0 ≠ ((1 : Int), ['A']) then 1 + 1 else 1) = some o0 := ho0
      simp only [outLine, Option.some.injEq] at ho0e
      rw [← hrun, hpdb, hoseq]
      simp only [List.nil_append, List.headD_cons]
      rw [← ho0e]
      by_cases hsent : p0 ≠ ((1 : Int), ['A'])
      · simp [hsent]
      · simp [hsent]

/-- The first sample atom record: residue number 5 in chain B. -/
def sampleAtomLine1 : List Char := "ATOM      1  N   ALA B    5 rest".toList

/-- A second sample atom record with the same residue number and chain. -/
def sampleAtomLine2 : List Char := "ATOM      2  CA  ALA B    5 rest".toList

/-- A non-atom record, skipped by the loop. -/
def sampleRemarkLine : List Char := "REMARK header".toList

theorem read_pdb_renum_counters_and_chains_witness :
    raisingMap parsePair (atomLines [sampleAtomLine1, sampleAtomLine2])
        = some [((5 : Int), ['B']), ((5 : Int), ['B'])] ∧
    read_pdb_renum [sampleAtomLine1, sampleAtomLine2] (some [2])
        = some ["ATOM      1  N   ALA A   25 rest".toList,
            "ATOM      2  CA  ALA A   25 rest".toList] ∧
    raisingMap (fun q => (segmentLetter [2] alphabet_list (q.2 - 1)).map
        (fun c => pySlice q.1 0 21 ++ [c] ++ fmtInt4 q.2 ++ q.1.drop 26))
      ((atomLines [sampleAtomLine1, sampleAtomLine2]).zip
        (counters [((5 : Int), ['B']), ((5 : Int), ['B'])]))
      = some ["ATOM      1  N   ALA A   25 rest".toList,
          "ATOM      2  CA  ALA A   25 rest".toList] ∧
    (counters [((5 : Int), ['B']), ((5 : Int), ['B'])]).getD 1 0
      = if ([((5 : Int), ['B']), ((5 : Int), ['B'])].getD 1 (0, [])
            ≠ [((5 : Int), ['B']), ((5 : Int), ['B'])].getD 0 (0, [])) then
          (counters [((5 : Int), ['B']), ((5 : Int), ['B'])]).getD 0 0 + 1
        else (counters [((5 : Int), ['B']), ((5 : Int), ['B'])]).getD 0 0 :=
  ⟨by decide, by decide,
   (read_pdb_renum_counters_and_chains [sampleAtomLine1, sampleAtomLine2] [2]
     [((5 : Int), ['B']), ((5 : Int), ['B'])]
     ["ATOM      1  N   ALA A   25 rest".toList,
      "ATOM      2  CA  ALA A   25 rest".toList]
     (by decide) (by decide)).2,
   (read_pdb_renum_counters_and_chains [sampleAtomLine1, sampleAtomLine2] [2]
     [((5 : Int), ['B']), ((5 : Int), ['B'])]
     ["ATOM      1  N   ALA A   25 rest".toList,
      "ATOM      2  CA  ALA A   25 rest".toList]
     (by decide) (by decide)).1 0 (by decide)⟩

theorem read_pdb_renum_first_record_sentinel_witness :
    atomLines [sampleRemarkLine, sampleAtomLine1] = [sampleAtomLine1] ∧
    parsePair sampleAtomLine1 = some ((5 : Int), ['B']) ∧
    read_pdb_renum [sampleRemarkLine, sampleAtomLine1] none
        = some ["ATOM      1  N   ALA B   25 rest".toList] ∧
    (["ATOM      1  N   ALA B   25 rest".toList] : List (List Char)).headD []
      = pySlice sampleAtomLine1 0 22
        ++ fmtInt4 (if ((5 : Int), ['B']) ≠ ((1 : Int), ['A']) then 2 else 1)
        ++ sampleAtomLine1.drop 26 :=
  ⟨by decide, by decide, by decide,
   read_pdb_renum_first_record_sentinel [sampleRemarkLine, sampleAtomLine1]
     sampleAtomLine1 [] ((5 : Int), ['B'])
     ["ATOM      1  N   ALA B   25 rest".toList]
     (by decide) (by decide) (by decide)⟩

end NBHelpers
